import Mathlib

/-!
Shallow embedding of the term_prep_plus quiz program (src/src/main.rs).

Modelling conventions:
* Rust `String` is Lean `String`; `Vec<String>` is `List String`.
* A Rust `HashSet<String>` value is modelled by its iteration sequence, a
  `List String` (without duplicates, as actual `HashSet` values are); set
  equality (`HashSet::eq`) is modelled separately from list equality.
* Machine integers (`usize`, `u8`) are `Nat` with explicit `% 2 ^ w`
  wrapping where the source relies on wrapping arithmetic (release-profile
  semantics of `c as u8 - b'a'`).
* Interactive input is modelled by passing the list of lines the user will
  type; each input loop consumes that list and either breaks with a value
  (`some`) or exhausts the list (`none`).
* Terminal output relevant to the claims is modelled as a list of events.
-/

namespace TermPrep

/-- `usize::MAX` on a 64-bit target, the sentinel produced by
`map_or(usize::MAX, ...)` in `Exam::study`. -/
def USIZE_MAX : Nat := 2 ^ 64 - 1

/-- The `Question` struct (main.rs lines 46-54).  `choices` is the iteration
sequence of the `HashSet<String>` field; `answer` and `refs` are `Vec<String>`. -/
structure Question where
  q_type : String
  prompt : String
  choices : List String
  answer : List String
  explanation : String
  refs : List String
  deriving DecidableEq, Repr

/-- The `Exam` struct (main.rs lines 40-43).  `questions` is the iteration
sequence of the `HashSet<Question>` field. -/
structure Exam where
  name : String
  questions : List Question
  deriving Repr

/-- Rust `HashSet::eq` on the two sets' iteration sequences: equal sizes and
every element of the first contained in the second (std's implementation). -/
def hsEq (a b : List String) : Bool :=
  a.length == b.length && a.all (fun x => b.contains x)

/-- The `impl PartialEq for Question` (main.rs lines 59-68): all six fields
compared field-by-field; `choices` via `HashSet::eq`, `answer` and `refs` via
`Vec::eq` (order-sensitive). -/
def questionEq (a b : Question) : Bool :=
  a.q_type == b.q_type
  && a.prompt == b.prompt
  && hsEq a.choices b.choices
  && a.answer == b.answer
  && a.explanation == b.explanation
  && a.refs == b.refs

/-- One datum fed to the `Hasher` state by `impl Hash for Question`. -/
inductive HashAtom where
  | str (s : String)
  | len (n : Nat)
  deriving DecidableEq, Repr

/-- The `impl Hash for Question` (main.rs lines 71-80), abstracted as the
sequence of data written to the `Hasher` state: `q_type`, `prompt`, then each
element of `choices` in the set's iteration order, each element of `answer`,
`explanation`, and finally `refs` via `Vec::hash` (which writes the length
followed by the elements).  Two `Question`s receive equal hash values for
every `Hasher` iff their traces are equal; a trace difference yields
different hashes for a collision-free hasher. -/
def hashTrace (q : Question) : List HashAtom :=
  HashAtom.str q.q_type :: HashAtom.str q.prompt ::
    (q.choices.map HashAtom.str
      ++ q.answer.map HashAtom.str
      ++ HashAtom.str q.explanation ::
        HashAtom.len q.refs.length :: q.refs.map HashAtom.str)

/-- The index computed from one typed selection in the `"mc"` and `"ms"`
branches: `choice.chars().next().map_or(usize::MAX, |c| (c as u8 - b'a') as usize)`.
`c as u8` truncates the scalar value to its low byte and the subtraction of
`b'a' = 97` wraps modulo 256 (release-profile wrapping semantics). -/
def charIndex (part : String) : Nat :=
  match part.toList with
  | [] => USIZE_MAX
  | c :: _ => (c.toNat % 256 + (256 - 97)) % 256

/-- Helper `display_choices_and_collect` (main.rs lines 410-428): for `"mc"`
and `"ms"` every choice is printed and collected in iteration order; for
`"ue"` only non-empty choices (hints) are collected; the catch-all arm
collects nothing. -/
def displayChoicesAndCollect (q : Question) : List String :=
  q.choices.filterMap (fun choice =>
    if q.q_type = "mc" ∨ q.q_type = "ms" then some choice
    else if q.q_type = "ue" ∧ choice ≠ "" then some choice
    else none)

/-- The `"mc"` answer-input loop (main.rs lines 274-284): the first typed
line whose letter maps to a displayed choice breaks the loop with that
choice; every other line is rejected with an error message and re-prompted. -/
def mcLoop (choices : List String) : List String → Option String
  | [] => none
  | l :: ls =>
    match choices.get? (charIndex l) with
    | some c => some c
    | none => mcLoop choices ls

/-- The `"mc"` grading (main.rs lines 287-297): correct iff `answer.get(0)`
is `Some(a)` and the selected choice string equals `a` exactly. -/
def gradeMC (answer : List String) (sel : String) : Bool :=
  match answer.get? 0 with
  | some a => sel == a
  | none => false

/-- One pass of the `"ms"` response parser (main.rs lines 305-315): each
comma-separated part is mapped through `charIndex`; if any part maps to no
displayed choice the `has_bad_input` flag is set and the whole response is
discarded (`none`), otherwise the picked choices are collected into a
`HashSet` (deduplicated, first-occurrence order). -/
def msParse (choices : List String) (parts : List String) : Option (List String) :=
  if parts.all (fun p => charIndex p < choices.length)
  then some ((parts.filterMap (fun p => choices.get? (charIndex p))).dedup)
  else none

/-- The `"ms"` input loop (main.rs lines 302-319): responses are read until
one parses with no bad input; earlier responses contribute nothing. -/
def msLoop (choices : List String) : List (List String) → Option (List String)
  | [] => none
  | r :: rs =>
    match msParse choices r with
    | some sel => some sel
    | none => msLoop choices rs

/-- The `"ms"` grading (main.rs lines 320-334): if the selected set's size
equals `answer.len()` every answer element is removed from the selection;
correct iff the selection is then empty. -/
def gradeMS (answer : List String) (sel : List String) : Bool :=
  let remaining :=
    if sel.length == answer.length
    then sel.filter (fun s => !(answer.contains s))
    else sel
  remaining.isEmpty

/-- ASCII lowercasing of one character, as used by
`str::eq_ignore_ascii_case`. -/
def asciiLower (c : Char) : Char :=
  if 'A' ≤ c ∧ c ≤ 'Z' then Char.ofNat (c.toNat + 32) else c

/-- Rust `str::eq_ignore_ascii_case`: equality after ASCII-lowercasing both
sides. -/
def eqIgnoreAsciiCase (a b : String) : Bool :=
  a.toList.map asciiLower == b.toList.map asciiLower

/-- Events emitted by the `"ue"` input loop while intercepting `"hint"`. -/
inductive UeEv where
  | showHints (hints : List String)
  | noHintsErr
  deriving DecidableEq, Repr

/-- The `"ue"` input loop (main.rs lines 340-359): a typed line equal to
`"hint"` ignoring ASCII case is intercepted — hints are displayed when the
question has any, otherwise an error message is printed — and the user is
re-prompted; the first other line breaks the loop as the submitted answer. -/
def ueLoop (hints : List String) : List String → List UeEv × Option String
  | [] => ([], none)
  | l :: ls =>
    if eqIgnoreAsciiCase l "hint"
    then
      let ev := if 0 < hints.length then UeEv.showHints hints else UeEv.noHintsErr
      let r := ueLoop hints ls
      (ev :: r.1, r.2)
    else ([], some l)

/-- The `"ue"` grading (main.rs lines 360-366): correct iff the submitted
string exactly equals some entry of `answer`. -/
def gradeUE (answer : List String) (sub : String) : Bool :=
  answer.any (fun a => sub == a)

/-- Rust `usize::from_str`: an optional leading `+`, then one or more ASCII
digits whose value fits in `usize`; anything else is a parse error.
`parseDigits` accumulates the digits, failing on any non-digit. -/
def parseDigits : List Char → Nat → Option Nat
  | [], acc => some acc
  | c :: rest, acc =>
    if '0' ≤ c ∧ c ≤ '9'
    then parseDigits rest (acc * 10 + (c.toNat - 48))
    else none

/-- Rust `input.parse::<usize>()` modelled on the typed line. -/
def parseUsize (s : String) : Option Nat :=
  let cs :=
    match s.toList with
    | '+' :: rest => rest
    | cs => cs
  match cs with
  | [] => none
  | _ =>
    match parseDigits cs 0 with
    | some v => if v ≤ USIZE_MAX then some v else none
    | none => none

/-- One pass of the question-count prompt (main.rs lines 256-261): the typed
line is accepted iff it parses as a `usize` and is strictly positive. -/
def parseCount (s : String) : Option Nat :=
  match parseUsize s with
  | some n => if 0 < n then some n else none
  | none => none

/-- The question-count input loop: lines are read until one is a valid
positive count; that count is the value the session uses. -/
def countLoop : List String → Option Nat
  | [] => none
  | s :: rest =>
    match parseCount s with
    | some n => some n
    | none => countLoop rest

/-- The clamp applied when the count loop breaks (main.rs line 258):
`min(num, self.questions.len())`. -/
def numQuestions (e : Exam) (num : Nat) : Nat :=
  min num e.questions.length

/-- The questions visited by the session loop (main.rs line 264):
`self.questions.iter().take(num_questions)`. -/
def presented (e : Exam) (num : Nat) : List Question :=
  e.questions.take (numQuestions e num)

/-- Terminal output events after grading a question. -/
inductive Ev where
  | correctMsg
  | incorrectMsg
  | answers (l : List String)
  | expl (s : String)
  | refsEv (l : List String)
  deriving DecidableEq, Repr

/-- The post-grading display shared by all three question branches
(main.rs lines 286-297, 328-334, 367-373 and 380-385): on a correct answer
only `Correct!` is printed; on an incorrect answer `Incorrect...` and the
correct-answer set are printed; then the explanation iff it is non-empty,
then always the references. -/
def postEvents (q : Question) (ok : Bool) : List Ev :=
  (if ok then [Ev.correctMsg] else [Ev.incorrectMsg, Ev.answers q.answer])
    ++ (if q.explanation = "" then [] else [Ev.expl q.explanation])
    ++ [Ev.refsEv q.refs]

/-- Result of presenting one question: a graded outcome with its display
events, exhaustion of the modelled input lines, or the `panic!` of the
catch-all `q_type` arm (main.rs line 375). -/
inductive StepOutcome where
  | answered (correct : Bool) (events : List Ev)
  | noResponse
  | panicked (msg : String)
  deriving DecidableEq, Repr

/-- One iteration of the study loop for one question (main.rs lines
264-389): dispatch on `q_type`, run the type's input protocol on the typed
lines, grade, and emit the post-grading display; an unrecognized `q_type`
reaches `panic!("q_type field not recognized")`. -/
def questionStep (q : Question) (inputs : List String) : StepOutcome :=
  if q.q_type = "mc" then
    match mcLoop (displayChoicesAndCollect q) inputs with
    | some sel => StepOutcome.answered (gradeMC q.answer sel) (postEvents q (gradeMC q.answer sel))
    | none => StepOutcome.noResponse
  else if q.q_type = "ms" then
    match msLoop (displayChoicesAndCollect q) (inputs.map (fun s => s.splitOn ", ")) with
    | some sel => StepOutcome.answered (gradeMS q.answer sel) (postEvents q (gradeMS q.answer sel))
    | none => StepOutcome.noResponse
  else if q.q_type = "ue" then
    match (ueLoop (displayChoicesAndCollect q) inputs).2 with
    | some sub => StepOutcome.answered (gradeUE q.answer sub) (postEvents q (gradeUE q.answer sub))
    | none => StepOutcome.noResponse
  else StepOutcome.panicked "q_type field not recognized"

/-- Model of the serde-derived `Deserialize` for `Question` (the derive on
main.rs line 46): every field is read as its declared Rust type and stored
unchanged; in particular `q_type` is a plain `String`, so its value is not
validated at load time. -/
def loadQuestion (q_type prompt : String) (choices answer : List String)
    (explanation : String) (refs : List String) : Question :=
  ⟨q_type, prompt, choices, answer, explanation, refs⟩

/-- The demo question of the end-to-end scenario in the spec. -/
def demoQ : Question :=
  ⟨"mc", "2+2?", ["3", "4", "5"], ["4"], "", ["arith"]⟩

end TermPrep

namespace TermPrep

/-! ### Helper lemmas -/

/-- Two nodup lists that contain each other's elements and have equal length
satisfy membership in both directions; used for the MultiSelect grader. -/
theorem mem_iff_of_nodup_subset_length_eq {l₁ l₂ : List String}
    (d₁ : l₁.Nodup) (hlen : l₁.length = l₂.length) (h : ∀ a ∈ l₁, a ∈ l₂) :
    ∀ a ∈ l₂, a ∈ l₁ := by
  have hsub : l₁ ⊆ l₂ := fun a ha => h a ha
  have hperm : l₁.Perm l₂ :=
    (List.subperm_of_subset d₁ hsub).perm_of_length_le (le_of_eq hlen.symm)
  intro a ha
  exact hperm.mem_iff.mpr ha

/-- A valid positive count accepted by one pass of the count prompt is
strictly positive. -/
theorem parseCount_pos (s : String) (n : Nat) (h : parseCount s = some n) :
    0 < n := by
  unfold parseCount at h
  cases hp : parseUsize s with
  | none => rw [hp] at h; exact absurd h (by simp)
  | some m =>
    rw [hp] at h
    by_cases hm : 0 < m
    · simp [hm] at h; omega
    · simp [hm] at h

/-- Any count the count loop terminates with is strictly positive. -/
theorem countLoop_pos : ∀ (inputs : List String) (n : Nat),
    countLoop inputs = some n → 0 < n := by
  intro inputs
  induction inputs with
  | nil => intro n h; simp [countLoop] at h
  | cons s rest ih =>
    intro n h
    rw [countLoop] at h
    cases hp : parseCount s with
    | none => rw [hp] at h; exact ih n h
    | some m => rw [hp] at h; simp at h; subst h; exact parseCount_pos s m hp

/-- The answer submitted by the `"ue"` input loop is never `"hint"` up to
ASCII case. -/
theorem ueLoop_snd_not_hint (hints : List String) :
    ∀ (inputs : List String) (sub : String),
      (ueLoop hints inputs).2 = some sub → eqIgnoreAsciiCase sub "hint" = false := by
  intro inputs
  induction inputs with
  | nil => intro sub h; simp [ueLoop] at h
  | cons l ls ih =>
    intro sub h
    by_cases hl : eqIgnoreAsciiCase l "hint" = true
    · rw [ueLoop] at h
      simp only [hl, if_true] at h
      exact ih sub h
    · rw [ueLoop] at h
      simp only [Bool.not_eq_true] at hl
      simp only [hl, Bool.false_eq_true, if_false, Option.some.injEq] at h
      subst h
      exact hl

end TermPrep

namespace TermPrep

/-- Any selection the `"ms"` response parser accepts from a response with at
least one part is non-empty: every part of an accepted response contributes
one displayed choice.  (`Exam::input` rejects empty lines and `split` yields
at least one part, so the `"ms"` grader never receives an empty set.) -/
theorem msParse_some_ne_nil (choices parts sel : List String)
    (hp : parts ≠ []) (h : msParse choices parts = some sel) : sel ≠ [] := by
  unfold msParse at h
  by_cases hc : parts.all (fun p => charIndex p < choices.length) = true
  · rw [if_pos hc] at h
    simp only [Option.some.injEq] at h
    subst h
    cases parts with
    | nil => exact absurd rfl hp
    | cons p rest =>
      have hlt : charIndex p < choices.length := by
        have := (List.all_eq_true.mp hc) p (by simp)
        simpa using this
      intro hnil
      rw [List.dedup_eq_nil] at hnil
      cases hcget : choices.get? (charIndex p) with
      | none =>
        rw [List.get?_eq_none] at hcget
        omega
      | some c =>
        rw [List.filterMap_cons, hcget] at hnil
        exact absurd hnil (by simp)
  · rw [if_neg hc] at h
    exact absurd h (by simp)

/-! ### Claim C1 -/

/-- Two Questions identical in every field except the iteration order of
their `choices` sets: equal under `HashSet` set equality, but their `Hash`
implementations feed the choices to the hasher in different orders. -/
def qChoicesFwd : Question := ⟨"mc", "2+2?", ["3", "4"], ["4"], "", []⟩

/-- The same Question with the reversed `choices` iteration sequence. -/
def qChoicesRev : Question := ⟨"mc", "2+2?", ["4", "3"], ["4"], "", []⟩

/-- C1: the claim that two Questions equal under the structural equality of
`impl PartialEq for Question` always hash identically is violated by the
code: `impl Hash for Question` writes the `choices` elements to the hasher
in the `HashSet`'s iteration order, so two Questions whose `choices` are
equal as sets but iterate in different orders are equal yet feed different
data sequences to the hasher and hash differently. -/
theorem C1_eq_hash_divergence :
    questionEq qChoicesFwd qChoicesRev = true
    ∧ hashTrace qChoicesFwd ≠ hashTrace qChoicesRev := by
  decide

/-! ### Claim C2 -/

/-- C2 counterexample: on the spec's demo exam question answered correctly
(input letter `b` selects the choice `4`), the post-grading display contains
no correct-answer event at all — the correct-answer set is printed only in
the Incorrect branch, not unconditionally. -/
theorem C2_correct_branch_no_answers :
    questionStep demoQ ["b"] = StepOutcome.answered true (postEvents demoQ true)
    ∧ Ev.answers demoQ.answer ∉ postEvents demoQ true := by
  decide

/-- C2 amended: after grading, the correct-answer set is displayed iff the
response was graded Incorrect; the explanation is displayed iff it is
non-empty; the references are always displayed. -/
theorem C2_post_grading_display (q : Question) (ok : Bool) :
    (Ev.answers q.answer ∈ postEvents q ok ↔ ok = false)
    ∧ (Ev.expl q.explanation ∈ postEvents q ok ↔ q.explanation ≠ "")
    ∧ Ev.refsEv q.refs ∈ postEvents q ok := by
  cases ok <;> by_cases h : q.explanation = "" <;> simp [postEvents, h]

/-! ### Claim C3 -/

/-- C3: for every exam and requested count `n > 0`, the session presents
exactly `min n |exam.questions|` questions — the count-loop breaks with
`min(num, self.questions.len())` and the study loop takes exactly that many
questions from the set's iteration sequence. -/
theorem C3_presented_count (e : Exam) (n : Nat) (h : 0 < n) :
    (presented e n).length = min n e.questions.length := by
  simp only [presented, numQuestions, List.length_take]
  omega

/-- The demo exam of the spec's end-to-end scenario. -/
def demoExam : Exam := ⟨"Demo", [demoQ]⟩

/-- Witness for C3 at the demo exam with a requested count exceeding the
number of questions. -/
theorem C3_presented_count_witness :
    0 < 5 ∧ (presented demoExam 5).length = min 5 demoExam.questions.length :=
  ⟨by decide, C3_presented_count demoExam 5 (by decide)⟩

end TermPrep

namespace TermPrep

/-! ### Claim C4 -/

/-- C4: for a MultiSelect question with a duplicate-free answer key and a
non-empty deduplicated set of valid selected options (every selection
produced by the `"ms"` input loop is of this shape), the grading is Correct
iff the sizes are equal and every member of `answer` is in the selected set
— i.e. the selected set equals the `answer` set; strict subsets, strict
supersets and one-member swaps are Incorrect. -/
theorem C4_ms_grading (choices answer sel : List String)
    (hans : answer.Nodup) (hsel : sel.Nodup) (hne : sel ≠ [])
    (hvalid : ∀ s ∈ sel, s ∈ choices) :
    gradeMS answer sel = true
      ↔ (sel.length = answer.length ∧ ∀ a ∈ answer, a ∈ sel) := by
  unfold gradeMS
  by_cases hlen : sel.length = answer.length
  · simp only [hlen, beq_self_eq_true, if_true, List.isEmpty_iff,
      List.filter_eq_nil_iff, Bool.not_eq_true, true_and]
    constructor
    · intro hall
      have hsub : ∀ a ∈ sel, a ∈ answer := by
        intro a ha
        have := hall a ha
        simpa using this
      exact mem_iff_of_nodup_subset_length_eq hsel hlen hsub
    · intro hall a ha
      have hsub : ∀ x ∈ answer, x ∈ sel := hall
      have : a ∈ answer :=
        mem_iff_of_nodup_subset_length_eq hans hlen.symm hsub a ha
      simpa using this
  · have hlen' : (sel.length == answer.length) = false := by
      simpa using hlen
    simp only [hlen', if_false, List.isEmpty_iff]
    constructor
    · intro h; exact absurd h hne
    · intro h; exact absurd h.1 hlen

/-- Witness for C4: selecting exactly the answer set in a different order is
graded Correct and set-equal. -/
theorem C4_ms_grading_witness :
    (["a", "b"] : List String).Nodup
    ∧ (["b", "a"] : List String).Nodup
    ∧ (["b", "a"] : List String) ≠ []
    ∧ (∀ s ∈ (["b", "a"] : List String), s ∈ (["a", "b", "c"] : List String))
    ∧ (gradeMS ["a", "b"] ["b", "a"] = true
        ↔ ((["b", "a"] : List String).length = (["a", "b"] : List String).length
            ∧ ∀ a ∈ (["a", "b"] : List String), a ∈ (["b", "a"] : List String))) :=
  ⟨by decide, by decide, by decide, by decide,
    C4_ms_grading ["a", "b", "c"] ["a", "b"] ["b", "a"]
      (by decide) (by decide) (by decide) (by decide)⟩

/-! ### Claim C5 -/

/-- C5: a MultiSelect response parses to `none` (is rejected whole, with the
user re-prompted) exactly when some part maps to no displayed choice, and a
rejected response contributes nothing to the graded selection: the input
loop continues with the remaining responses only. -/
theorem C5_ms_invalid_pick_rejected (choices : List String) (r : List String)
    (rs : List (List String)) :
    (msParse choices r = none ↔ ∃ p ∈ r, choices.length ≤ charIndex p)
    ∧ ((∃ p ∈ r, choices.length ≤ charIndex p) →
        msLoop choices (r :: rs) = msLoop choices rs) := by
  have hiff : msParse choices r = none ↔ ∃ p ∈ r, choices.length ≤ charIndex p := by
    unfold msParse
    by_cases hc : ∀ p ∈ r, charIndex p < choices.length
    · rw [if_pos (by simpa [List.all_eq_true] using hc)]
      constructor
      · intro h
        exact absurd h (by simp)
      · rintro ⟨p, hp, hge⟩
        exact absurd (hc p hp) (Nat.not_lt.mpr hge)
    · rw [if_neg (by simpa [List.all_eq_true] using hc)]
      constructor
      · intro _
        push_neg at hc
        obtain ⟨p, hp, hge⟩ := hc
        exact ⟨p, hp, hge⟩
      · intro _
        rfl
  refine ⟨hiff, fun h => ?_⟩
  rw [msLoop, hiff.mpr h]

/-- Witness for C5: the response `a, z` against two displayed choices has the
unrecognized pick `z`, so the whole response is rejected and the loop moves
on to the next response. -/
theorem C5_ms_invalid_pick_rejected_witness :
    (∃ p ∈ (["a", "z"] : List String),
      (["x", "y"] : List String).length ≤ charIndex p)
    ∧ msLoop ["x", "y"] [["a", "z"], ["b"]] = msLoop ["x", "y"] [["b"]] :=
  ⟨by decide,
    (C5_ms_invalid_pick_rejected ["x", "y"] ["a", "z"] [["b"]]).2 (by decide)⟩

/-! ### Claim C6 -/

/-- C6: for a SingleChoice question whose answer key is the single entry
`a`, grading is Correct iff the selected option string equals `a` exactly
(String equality, hence case-sensitive); any other selection is Incorrect. -/
theorem C6_mc_grading (a sel : String) :
    gradeMC [a] sel = true ↔ sel = a := by
  simp [gradeMC]

end TermPrep

namespace TermPrep

/-! ### Claim C7 -/

/-- C7: for a FreeEntry question, any number of hint requests before the
submitted line do not change which line is submitted (they consume no
attempt), and the submitted string grades Correct iff it exactly equals at
least one entry of the `answer` list. -/
theorem C7_ue_grading (answer hints pre rest : List String) (sub : String)
    (hpre : ∀ l ∈ pre, eqIgnoreAsciiCase l "hint" = true)
    (hsub : eqIgnoreAsciiCase sub "hint" = false) :
    (ueLoop hints (pre ++ sub :: rest)).2 = some sub
    ∧ (gradeUE answer sub = true ↔ sub ∈ answer) := by
  constructor
  · induction pre with
    | nil =>
      rw [List.nil_append, ueLoop]
      simp [hsub]
    | cons l ls ih =>
      have hl : eqIgnoreAsciiCase l "hint" = true := hpre l (by simp)
      rw [List.cons_append, ueLoop]
      simp only [hl, if_true]
      exact ih (fun x hx => hpre x (by simp [hx]))
  · simp only [gradeUE, List.any_eq_true, beq_iff_eq]
    constructor
    · rintro ⟨a, ha, rfl⟩
      exact ha
    · intro h
      exact ⟨sub, h, rfl⟩

/-- Witness for C7: two hint requests (in different letter cases) precede the
submitted answer `42`, which matches one of two acceptable literals. -/
theorem C7_ue_grading_witness :
    (∀ l ∈ (["hint", "HINT"] : List String), eqIgnoreAsciiCase l "hint" = true)
    ∧ eqIgnoreAsciiCase "42" "hint" = false
    ∧ (ueLoop [] (["hint", "HINT"] ++ "42" :: [])).2 = some "42"
    ∧ (gradeUE ["42", "forty-two"] "42" = true
        ↔ "42" ∈ (["42", "forty-two"] : List String)) :=
  ⟨by decide, by decide,
    (C7_ue_grading ["42", "forty-two"] [] ["hint", "HINT"] [] "42"
      (by decide) (by decide)).1,
    (C7_ue_grading ["42", "forty-two"] [] ["hint", "HINT"] [] "42"
      (by decide) (by decide)).2⟩

/-! ### Claim C8 -/

/-- C8: a typed count is rejected by one pass of the count prompt iff it is
non-numeric (fails `usize` parsing) or parses to zero; a rejected line makes
the loop continue with the remaining lines (re-prompt); and any count the
loop terminates with is strictly positive, so the presentation loop only
runs with a validated positive count. -/
theorem C8_count_validation (s : String) (rest : List String) (n : Nat) :
    (parseCount s = none ↔ (parseUsize s = none ∨ parseUsize s = some 0))
    ∧ (parseCount s = none → countLoop (s :: rest) = countLoop rest)
    ∧ (countLoop (s :: rest) = some n → 0 < n) := by
  refine ⟨?_, ?_, ?_⟩
  · unfold parseCount
    cases hp : parseUsize s with
    | none => simp
    | some m =>
      by_cases hm : 0 < m
      · simp only [hm, if_true]
        constructor
        · intro h; exact absurd h (by simp)
        · rintro (h | h)
          · exact absurd h (by simp)
          · simp only [Option.some.injEq] at h; omega
      · have hm0 : m = 0 := by omega
        subst hm0
        simp
  · intro h
    rw [countLoop, h]
  · intro h
    exact countLoop_pos (s :: rest) n h

/-- Witness for C8: the non-numeric line `abc` and the non-positive line `0`
are both rejected and skipped; the loop then accepts `5`, a positive count. -/
theorem C8_count_validation_witness :
    parseCount "abc" = none
    ∧ countLoop ["abc", "0", "5"] = countLoop ["0", "5"]
    ∧ countLoop ["abc", "0", "5"] = some 5
    ∧ 0 < 5 :=
  ⟨by decide,
    (C8_count_validation "abc" ["0", "5"] 5).2.1 (by decide),
    by decide,
    (C8_count_validation "abc" ["0", "5"] 5).2.2 (by decide)⟩

/-! ### Claim C9 -/

/-- C9: a Question whose `q_type` is none of `mc`, `ms`, `ue` is stored
unchanged by the load step (the serde-derived deserializer performs no
validation of the `q_type` string), and presenting it during a study session
reaches the `panic!("q_type field not recognized")` arm of the grading
dispatch — the process aborts at grading time instead of a load-time error. -/
theorem C9_unknown_qtype_aborts (t p : String) (c a : List String)
    (ex : String) (r : List String) (inputs : List String)
    (h : t ≠ "mc" ∧ t ≠ "ms" ∧ t ≠ "ue") :
    loadQuestion t p c a ex r = ⟨t, p, c, a, ex, r⟩
    ∧ questionStep (loadQuestion t p c a ex r) inputs
        = StepOutcome.panicked "q_type field not recognized" := by
  obtain ⟨h1, h2, h3⟩ := h
  exact ⟨rfl, by simp [loadQuestion, questionStep, h1, h2, h3]⟩

/-- Witness for C9 at the unrecognized type string `xx`. -/
theorem C9_unknown_qtype_aborts_witness :
    ("xx" ≠ "mc" ∧ "xx" ≠ "ms" ∧ "xx" ≠ "ue")
    ∧ questionStep (loadQuestion "xx" "p" ["c1"] ["a1"] "" []) ["a"]
        = StepOutcome.panicked "q_type field not recognized" :=
  ⟨by decide,
    (C9_unknown_qtype_aborts "xx" "p" ["c1"] ["a1"] "" [] ["a"] (by decide)).2⟩

/-! ### Claim C10 -/

/-- C10: a typed FreeEntry line equal to `hint` ignoring ASCII case is
intercepted before grading — an event (hints shown when the question has
any, an error message otherwise) is emitted and the loop re-prompts with the
submitted answer unchanged — and any line the loop does submit grades
Incorrect against the answer key `["hint"]`: such a question can never be
answered Correct. -/
theorem C10_hint_interception (hints inputs : List String) (l sub : String)
    (hl : eqIgnoreAsciiCase l "hint" = true) :
    ((ueLoop hints (l :: inputs)).2 = (ueLoop hints inputs).2
      ∧ (ueLoop hints (l :: inputs)).1
          = (if 0 < hints.length then UeEv.showHints hints else UeEv.noHintsErr)
              :: (ueLoop hints inputs).1)
    ∧ ((ueLoop hints inputs).2 = some sub → gradeUE ["hint"] sub = false) := by
  refine ⟨⟨?_, ?_⟩, ?_⟩
  · rw [ueLoop]
    simp [hl]
  · rw [ueLoop]
    simp [hl]
  · intro hsome
    have hnot : eqIgnoreAsciiCase sub "hint" = false :=
      ueLoop_snd_not_hint hints inputs sub hsome
    have hne : sub ≠ "hint" := by
      intro heq
      rw [heq] at hnot
      simp [eqIgnoreAsciiCase] at hnot
    simp [gradeUE, hne]

/-- Witness for C10: the lines `Hint` and `HINT` are intercepted; the
submitted answer `42` against the key `["hint"]` grades Incorrect. -/
theorem C10_hint_interception_witness :
    eqIgnoreAsciiCase "Hint" "hint" = true
    ∧ (ueLoop ["h1"] ["HINT", "42"]).2 = some "42"
    ∧ (ueLoop ["h1"] ["Hint", "HINT", "42"]).2 = (ueLoop ["h1"] ["HINT", "42"]).2
    ∧ gradeUE ["hint"] "42" = false :=
  ⟨by decide, by decide,
    ((C10_hint_interception ["h1"] ["HINT", "42"] "Hint" "42" (by decide)).1).1,
    (C10_hint_interception ["h1"] ["HINT", "42"] "Hint" "42" (by decide)).2 (by decide)⟩

end TermPrep
